import Mathlib

/-!
Verification development for the pc-ble-driver layered serial transport.

The repository ships only the public API header `src/include/common/sd_rpc.h`;
the physical / data-link / transport / adapter implementations the spec
describes are not under `src/`.  Following the spec (sections 3, 4.2, 4.4, 6),
the data-link layer (three-wire framing, escaping, CRC, sequence-number
acknowledgment, retransmission) and the adapter API surface are modelled here
as executable Lean definitions, and the testable properties of spec section 8
are proved about them.
-/

namespace ThreeWire

/-- Modelled from the spec: the frame delimiter byte (start/end marker) of the
three-wire wire format (spec 4.2, "SOF | header | payload(escaped) | CRC |
EOF").  The data-link implementation is missing from src, so the customary
SLIP-style constants of the three-wire protocol are used. -/
def delimByte : Nat := 192

/-- Modelled from the spec: the escape byte of the three-wire wire format. -/
def escByte : Nat := 219

/-- Modelled from the spec: escaped substitute emitted after the escape byte
for an occurrence of the frame delimiter inside header/payload/CRC. -/
def escDelim : Nat := 220

/-- Modelled from the spec: escaped substitute emitted after the escape byte
for an occurrence of the escape byte itself inside header/payload/CRC. -/
def escEsc : Nat := 221

/-- Modelled from the spec (4.2): any byte equal to the frame delimiter or the
escape byte occurring in header/payload/CRC is escaped; all other bytes pass
through unchanged. -/
def escapeByte (b : Nat) : List Nat :=
  if b = delimByte then [escByte, escDelim]
  else if b = escByte then [escByte, escEsc]
  else [b]

/-- Escaping of a byte sequence, byte by byte. -/
def escapeBytes : List Nat → List Nat
  | [] => []
  | b :: rest => escapeByte b ++ escapeBytes rest

/-- Modelled from the spec (4.2): inverse of the escaping; a corrupted escape
sequence (escape byte followed by an unexpected byte) or a bare delimiter
inside the frame body invalidates the frame. -/
def unescapeBytes : List Nat → Option (List Nat)
  | [] => some []
  | b :: rest =>
    if b = escByte then
      match rest with
      | [] => none
      | c :: rest2 =>
        if c = escDelim then (unescapeBytes rest2).map (fun l => delimByte :: l)
        else if c = escEsc then (unescapeBytes rest2).map (fun l => escByte :: l)
        else none
    else if b = delimByte then none
    else (unescapeBytes rest).map (fun l => b :: l)

/-- Modelled from the spec: one shift-and-conditioned-xor step of the CRC-16
register update with the CCITT polynomial 0x1021 (= 4129).  Spec 4.2 requires
a CRC over header+payload; the implementation is absent from src, so the
standard CRC-16-CCITT used by the three-wire protocol is modelled. -/
def crcBit (s : Nat) : Nat :=
  if s < 32768 then 2 * s else ((2 * s) % 65536) ^^^ 4129

/-- CRC-16 register update for one input byte: xor the byte into the high
half of the 16-bit register, then run eight bit steps. -/
def crcByte (s b : Nat) : Nat :=
  crcBit (crcBit (crcBit (crcBit (crcBit (crcBit (crcBit (crcBit (s ^^^ 256 * (b % 256)))))))))

/-- Modelled from the spec: the CRC-16 of a byte sequence, all-ones initial
register value. -/
def crc16 (l : List Nat) : Nat := List.foldl crcByte 65535 l

/-- Modelled from the spec (4.2): the packet type carried in the frame header,
one of data, ack, or link-control. -/
inductive PacketType
  | data
  | ack
  | linkControl
deriving DecidableEq

/-- Modelled from the spec (3, "Raw Frame"): a data-link frame carries a
packet type, a 3-bit sequence number (mod 8), an acknowledgment number, a
reliability flag and a (possibly empty) payload. -/
structure Frame where
  ptype : PacketType
  seq : Nat
  ackNum : Nat
  reliable : Bool
  payload : List Nat
deriving DecidableEq

/-- Wire code of a packet type in the frame header. -/
def typeCode : PacketType → Nat
  | .data => 0
  | .ack => 1
  | .linkControl => 2

/-- Inverse of typeCode; an unknown code invalidates the frame. -/
def decodeType (n : Nat) : Option PacketType :=
  if n = 0 then some .data
  else if n = 1 then some .ack
  else if n = 2 then some .linkControl
  else none

/-- Modelled from the spec (4.2): the two header bytes encoding the sequence
number (3 bits), the acknowledgment number (3 bits), the reliability flag and
the packet type. -/
def headerBytes (f : Frame) : List Nat :=
  [f.seq % 8 + 8 * (f.ackNum % 8) + 64 * (if f.reliable then 1 else 0), typeCode f.ptype]

/-- The CRC-covered part of a frame: header followed by payload (spec 3,
"CRC covers header+payload"). -/
def bodyBytes (f : Frame) : List Nat := headerBytes f ++ f.payload

/-- Little-endian two-byte encoding of a CRC-16 value. -/
def crcOut (c : Nat) : List Nat := [c % 256, c / 256 % 256]

/-- The unescaped content of a frame: header, payload and trailing CRC. -/
def contentBytes (f : Frame) : List Nat :=
  bodyBytes f ++ crcOut (crc16 (bodyBytes f))

/-- Modelled from the spec (4.2): the full wire image of a frame,
SOF delimiter, escaped content, EOF delimiter. -/
def wireBytes (f : Frame) : List Nat :=
  delimByte :: (escapeBytes (contentBytes f) ++ [delimByte])

/-- Parse the two header bytes back into a frame around a given payload. -/
def parseHeader (b0 b1 : Nat) (payload : List Nat) : Option Frame :=
  (decodeType b1).map (fun t =>
    ⟨t, b0 % 8, b0 / 8 % 8, decide (b0 / 64 % 2 = 1), payload⟩)

/-- Modelled from the spec (4.2): decoding of unescaped frame content; the
trailing two bytes must equal the CRC-16 of header+payload, otherwise the
frame is invalid and is discarded. -/
def decodeContent (bytes : List Nat) : Option Frame :=
  if bytes.length < 4 then none
  else if bytes.drop (bytes.length - 2) = crcOut (crc16 (bytes.take (bytes.length - 2))) then
    match bytes.take (bytes.length - 2) with
    | b0 :: b1 :: payload => parseHeader b0 b1 payload
    | _ => none
  else none

/-- Modelled from the spec (4.2): full inbound frame decoding, checking the
delimiters, undoing the escaping and validating the CRC. -/
def decodeWire (bytes : List Nat) : Option Frame :=
  if bytes.length < 2 then none
  else if bytes.head? = some delimByte ∧ bytes.getLast? = some delimByte then
    match unescapeBytes ((bytes.drop 1).dropLast) with
    | some content => decodeContent content
    | none => none
  else none

/-- Modelled from the spec (3, "Inbound Tracking"): receiver-side data-link
state, the next expected sequence number (the last delivered one plus one,
mod 8). -/
structure RecvState where
  expected : Nat
deriving DecidableEq

/-- Modelled from the spec (4.2): sequence numbers advance modulo 8. -/
def nextSeq (s : Nat) : Nat := (s + 1) % 8

/-- An acknowledgment frame referencing expected sequence number n. -/
def ackFrame (n : Nat) : Frame := ⟨.ack, 0, n, false, []⟩

/-- Modelled from the spec (4.2): handling of a valid inbound data frame.
If its sequence number is the next expected one, deliver the payload upward,
advance the expected sequence and emit an acknowledgment referencing the new
expected number.  If it is a duplicate (sequence number equal to the last
delivered one), re-acknowledge without re-delivering.  Out-of-window
sequence numbers are discarded (the resynchronization it would additionally
trigger is outside this model).  Result: new state, payload delivered upward
(if any), acknowledgment frames emitted. -/
def handleData (st : RecvState) (f : Frame) :
    RecvState × Option (List Nat) × List Frame :=
  if f.seq = st.expected then
    (⟨nextSeq st.expected⟩, some f.payload, [ackFrame (nextSeq st.expected)])
  else if f.seq = (st.expected + 7) % 8 then
    (st, none, [ackFrame st.expected])
  else
    (st, none, [])

/-- Modelled from the spec (4.2): receiver-side processing of one unescaped
inbound frame content.  A frame failing the CRC (or otherwise invalid) is
discarded: nothing is delivered upward and the state is unchanged. -/
def processContent (st : RecvState) (bytes : List Nat) :
    RecvState × Option (List Nat) × List Frame :=
  match decodeContent bytes with
  | none => (st, none, [])
  | some f =>
    match f.ptype with
    | .data => handleData st f
    | _ => (st, none, [])

/-- Modelled from the spec (3, "Link State"): the data-link state machine. -/
inductive LinkState
  | uninitialized
  | initializing
  | active
  | closed
deriving DecidableEq

/-- Modelled from the spec (3, "Outbound Window"): the record held for the
one unacknowledged outbound data frame: sequence number, payload, retry
count. -/
structure WindowEntry where
  seq : Nat
  payload : List Nat
  retryCount : Nat
deriving DecidableEq

/-- Modelled from the spec (3, 4.2): sender-side data-link state: link state,
next outbound sequence number, the outbound window (at most one
unacknowledged frame), and whether the retransmission timer is armed. -/
structure SendState where
  link : LinkState
  nextOut : Nat
  inFlight : List WindowEntry
  timerArmed : Bool
deriving DecidableEq

/-- The reliable data frame transmitted for a window entry; retransmissions
use the same frame with an unchanged sequence number. -/
def dataFrame (w : WindowEntry) : Frame := ⟨.data, w.seq, 0, true, w.payload⟩

/-- Modelled from the spec (4.2, Active): accept a reliable send if the link
is Active and the outbound window is free: frame and transmit immediately,
arm the retransmission timer and occupy the window.  If the window is
occupied (or the link is not Active) nothing is accepted now.  Result: new
state and the frames put on the wire. -/
def dlSend (st : SendState) (payload : List Nat) : SendState × List Frame :=
  if st.link = .active ∧ st.inFlight = [] then
    ({ st with
        inFlight := [⟨st.nextOut, payload, 0⟩],
        timerArmed := true,
        nextOut := nextSeq st.nextOut },
      [dataFrame ⟨st.nextOut, payload, 0⟩])
  else (st, [])

/-- Modelled from the spec (4.2): an acknowledgment number matches the
outstanding sequence number when it references it, i.e. equals that sequence
number advanced by one mod 8 (the new expected number the receiver sent). -/
def ackMatches (a seqn : Nat) : Bool := a = nextSeq seqn

/-- Modelled from the spec (4.2): on receipt of a valid ack frame, if its ack
number matches the currently outstanding sequence number, clear the outbound
window and cancel the retransmission timer; otherwise ignore it (stale
ack). -/
def handleAck (st : SendState) (a : Nat) : SendState :=
  match st.inFlight with
  | w :: _ =>
    if ackMatches a w.seq then { st with inFlight := [], timerArmed := false }
    else st
  | [] => st

/-- Modelled from the spec (3, 4.2): a link reset discards any pending
outbound state and disarms the timer. -/
def linkReset (st : SendState) : SendState :=
  { st with link := .closed, inFlight := [], timerArmed := false }

/-- Modelled from the spec (4.2): retransmission timer firing.  Retransmit
the same frame with an unchanged sequence number and increment the retry
count; after exceeding the maximum retry count, report a fatal link error
upward (third component: number of fatal errors reported) and transition to
Closed, discarding the window. -/
def onTimeout (maxRetries : Nat) (st : SendState) : SendState × List Frame × Nat :=
  if st.timerArmed then
    match st.inFlight with
    | w :: _ =>
      if w.retryCount < maxRetries then
        ({ st with inFlight := [⟨w.seq, w.payload, w.retryCount + 1⟩] },
          [dataFrame w], 0)
      else
        ({ st with link := .closed, inFlight := [], timerArmed := false }, [], 1)
    | [] => (st, [], 0)
  else (st, [], 0)

/-- Iterated timer firings: run n consecutive timeouts (no ack ever arrives)
and count the fatal link errors reported. -/
def runTimeouts (maxRetries : Nat) : SendState → Nat → SendState × Nat
  | st, 0 => (st, 0)
  | st, n + 1 =>
    ((runTimeouts maxRetries (onTimeout maxRetries st).1 n).1,
      (onTimeout maxRetries st).2.2 + (runTimeouts maxRetries (onTimeout maxRetries st).1 n).2)

/-- One data-link event: the events that drive the sender-side state (spec 4.2
and 5): a send attempt, receipt of an ack number, a retransmission timer
firing, or a link reset. -/
inductive Step : SendState → SendState → Prop
  | send (st : SendState) (p : List Nat) : Step st (dlSend st p).1
  | recvAck (st : SendState) (a : Nat) : Step st (handleAck st a)
  | timeout (mr : Nat) (st : SendState) : Step st (onTimeout mr st).1
  | reset (st : SendState) : Step st (linkReset st)

/-- The sender-side state right after the link became Active. -/
def initSendState : SendState := ⟨.active, 0, [], false⟩

/-- States of the sender-side data-link layer reachable from the freshly
activated link. -/
inductive Reachable : SendState → Prop
  | init : Reachable initSendState
  | step {s t : SendState} : Reachable s → Step s t → Reachable t

/-- Modelled from the spec (8, first property): the bounded-loss network
model, one entry per transmission round of the outstanding frame; true means
the round is lost (the data frame or its ack is dropped or corrupted).  The
premise of the delivery guarantee is that some round among the first
maxRetries succeeds, i.e. at most maxRetries - 1 consecutive transmissions of
the frame are lost. -/
def goodDrops (maxRetries : Nat) (ds : List Bool) : Prop :=
  false ∈ ds.take maxRetries

instance (maxRetries : Nat) (ds : List Bool) : Decidable (goodDrops maxRetries ds) := by
  unfold goodDrops
  infer_instance

/-- Modelled from the spec (4.2, 8): the transmission rounds for the one
outstanding frame.  Each round the frame is transmitted; on a lost round the
retransmission timer fires (retransmitting or, when retries are exhausted,
killing the link); on a successful round the receiver processes the frame
content, delivers/acknowledges, and the acknowledgments reach the sender.
Returns receiver state, sender state and the payloads delivered upward. -/
def sendRounds (maxRetries : Nat) (rs : RecvState) (ss : SendState) :
    List Bool → RecvState × SendState × List (List Nat)
  | [] => (rs, ss, [])
  | d :: rest =>
    match ss.inFlight with
    | [] => (rs, ss, [])
    | w :: _ =>
      if d then
        sendRounds maxRetries rs (onTimeout maxRetries ss).1 rest
      else
        ((processContent rs (contentBytes (dataFrame w))).1,
          ((processContent rs (contentBytes (dataFrame w))).2.2).foldl
            (fun s a => handleAck s a.ackNum) ss,
          ((processContent rs (contentBytes (dataFrame w))).2.1).toList)

/-- Accept one payload via send and run its transmission rounds. -/
def sendOne (maxRetries : Nat) (rs : RecvState) (ss : SendState)
    (p : List Nat) (ds : List Bool) : RecvState × SendState × List (List Nat) :=
  sendRounds maxRetries rs (dlSend ss p).1 ds

/-- Modelled from the spec (8, first property): submit a list of payloads in
order, each with its own schedule of transmission-round outcomes, and collect
every payload delivered to the receiver upward callback. -/
def runSystem (maxRetries : Nat) (rs : RecvState) (ss : SendState) :
    List (List Nat) → List (List Bool) → RecvState × SendState × List (List Nat)
  | [], _ => (rs, ss, [])
  | _ :: _, [] => (rs, ss, [])
  | p :: ps, ds :: dss =>
    ((runSystem maxRetries (sendOne maxRetries rs ss p ds).1
        (sendOne maxRetries rs ss p ds).2.1 ps dss).1,
      (runSystem maxRetries (sendOne maxRetries rs ss p ds).1
        (sendOne maxRetries rs ss p ds).2.1 ps dss).2.1,
      (sendOne maxRetries rs ss p ds).2.2 ++
        (runSystem maxRetries (sendOne maxRetries rs ss p ds).1
          (sendOne maxRetries rs ss p ds).2.1 ps dss).2.2)

/-- Status code NRF_SUCCESS of the sd_rpc API (sd_rpc.h). -/
def NRF_SUCCESS : Nat := 0

/-- Status code NRF_ERROR_INVALID_PARAM of the sd_rpc API (sd_rpc.h). -/
def NRF_ERROR_INVALID_PARAM : Nat := 7

/-- Status code returned when link establishment fails (spec 4.4, 7b). -/
def NRF_ERROR_TIMEOUT : Nat := 13

/-- Modelled from the spec (6): the ordered log severity codes,
trace < debug < info < warning < error < fatal, as the C enum values 0..5 of
sd_rpc_log_severity_t. -/
def SD_RPC_LOG_INFO : Nat := 2

/-- A severity filter value is valid when it is one of the six enum values. -/
def severityValid (sev : Nat) : Bool := sev ≤ 5

/-- Modelled from the spec (3, "Adapter Handle") and sd_rpc.h: the adapter
aggregates the layer triple (abstracted to its link state here), an
open/closed flag, and the installed log severity filter. -/
structure Adapter where
  opened : Bool
  link : LinkState
  severityFilter : Nat
deriving DecidableEq

/-- Modelled from the spec (6) and sd_rpc.h (sd_rpc_adapter_create): a fresh
adapter is closed, its link uninitialized, and its default log handler
severity filter is LOG_INFO (sd_rpc.h line 100). -/
def adapterCreate : Adapter := ⟨false, .uninitialized, SD_RPC_LOG_INFO⟩

/-- Modelled from the spec (4.2, Initializing): the link synchronization
handshake.  Periodically emit a link-control synchronization packet until the
peer responds (one Bool per attempt) or the configured number of attempts is
exhausted, in which case the link stays out of Active (Closed here). -/
def runHandshake : Nat → List Bool → LinkState
  | 0, _ => .closed
  | _ + 1, [] => .closed
  | n + 1, r :: rest => if r then .active else runHandshake n rest

/-- Modelled from the spec (4.4) and sd_rpc.h (sd_rpc_open): open starts the
data-link initialization handshake and only returns NRF_SUCCESS once the link
reaches Active; if link establishment fails it returns a link-establishment
error instead.  The peer behaviour during the handshake is abstracted as the
response list. -/
def sd_rpc_open (ad : Adapter) (maxSyncAttempts : Nat) (responses : List Bool) :
    Nat × Adapter :=
  if runHandshake maxSyncAttempts responses = .active then
    (NRF_SUCCESS, { ad with opened := true, link := .active })
  else
    (NRF_ERROR_TIMEOUT, { ad with link := .closed })

/-- Modelled from the spec (4.4, 6, 7d) and sd_rpc.h
(sd_rpc_log_handler_severity_filter_set): install the severity filter when
the value is one of the valid enum values and return NRF_SUCCESS; otherwise
return NRF_ERROR_INVALID_PARAM and change nothing. -/
def sd_rpc_log_handler_severity_filter_set (ad : Adapter) (sev : Nat) :
    Nat × Adapter :=
  if severityValid sev then (NRF_SUCCESS, { ad with severityFilter := sev })
  else (NRF_ERROR_INVALID_PARAM, ad)

/-- From sd_rpc.h lines 59-64: sd_rpc_adapter_delete is declared with return
type void, so deletion produces no status value at all. -/
def sd_rpc_adapter_delete (_ad : Adapter) : Unit := ()

end ThreeWire

namespace ThreeWire

theorem xor_lt_65536 {a b : Nat} (ha : a < 65536) (hb : b < 65536) :
    a ^^^ b < 65536 := by
  have e : (2 : Nat) ^ 16 = 65536 := by norm_num
  have h : a ^^^ b < 2 ^ 16 := Nat.bitwise_lt (by rw [e]; exact ha) (by rw [e]; exact hb)
  rw [e] at h
  exact h

theorem crcBit_lt (s : Nat) : crcBit s < 65536 := by
  unfold crcBit
  split
  · omega
  · exact xor_lt_65536 (Nat.mod_lt _ (by norm_num)) (by norm_num)

theorem crcByte_lt (s b : Nat) : crcByte s b < 65536 :=
  crcBit_lt _

theorem foldl_crcByte_lt (l : List Nat) (s : Nat) (hs : s < 65536) :
    List.foldl crcByte s l < 65536 := by
  induction l generalizing s with
  | nil => simpa using hs
  | cons b rest ih =>
    rw [List.foldl_cons]
    exact ih _ (crcByte_lt s b)

theorem crc16_lt (l : List Nat) : crc16 l < 65536 :=
  foldl_crcByte_lt l 65535 (by norm_num)

theorem crcBit_inj {s t : Nat} (hs : s < 65536) (ht : t < 65536)
    (h : crcBit s = crcBit t) : s = t := by
  unfold crcBit at h
  rcases Nat.lt_or_ge s 32768 with h1 | h1 <;> rcases Nat.lt_or_ge t 32768 with h2 | h2
  · rw [if_pos h1, if_pos h2] at h
    omega
  · rw [if_pos h1, if_neg (by omega)] at h
    have hp : (2 * s) % 2 = (((2 * t) % 65536) ^^^ 4129) % 2 := by rw [h]
    rw [Nat.xor_mod_two_eq] at hp
    omega
  · rw [if_neg (by omega), if_pos h2] at h
    have hp : (((2 * s) % 65536) ^^^ 4129) % 2 = (2 * t) % 2 := by rw [h]
    rw [Nat.xor_mod_two_eq] at hp
    omega
  · rw [if_neg (by omega), if_neg (by omega)] at h
    have hq := Nat.xor_left_inj.mp h
    omega

theorem crcByte_inj_state {s t : Nat} (b : Nat) (hs : s < 65536) (ht : t < 65536)
    (h : crcByte s b = crcByte t b) : s = t := by
  have hb : 256 * (b % 256) < 65536 := by omega
  unfold crcByte at h
  have h1 := crcBit_inj (crcBit_lt _) (crcBit_lt _) h
  have h2 := crcBit_inj (crcBit_lt _) (crcBit_lt _) h1
  have h3 := crcBit_inj (crcBit_lt _) (crcBit_lt _) h2
  have h4 := crcBit_inj (crcBit_lt _) (crcBit_lt _) h3
  have h5 := crcBit_inj (crcBit_lt _) (crcBit_lt _) h4
  have h6 := crcBit_inj (crcBit_lt _) (crcBit_lt _) h5
  have h7 := crcBit_inj (crcBit_lt _) (crcBit_lt _) h6
  have h8 := crcBit_inj (xor_lt_65536 hs hb) (xor_lt_65536 ht hb) h7
  exact Nat.xor_left_inj.mp h8

theorem crcByte_inj_byte {s b c : Nat} (hs : s < 65536) (hb : b < 256) (hc : c < 256)
    (h : crcByte s b = crcByte s c) : b = c := by
  have hb2 : 256 * (b % 256) < 65536 := by omega
  have hc2 : 256 * (c % 256) < 65536 := by omega
  unfold crcByte at h
  have h1 := crcBit_inj (crcBit_lt _) (crcBit_lt _) h
  have h2 := crcBit_inj (crcBit_lt _) (crcBit_lt _) h1
  have h3 := crcBit_inj (crcBit_lt _) (crcBit_lt _) h2
  have h4 := crcBit_inj (crcBit_lt _) (crcBit_lt _) h3
  have h5 := crcBit_inj (crcBit_lt _) (crcBit_lt _) h4
  have h6 := crcBit_inj (crcBit_lt _) (crcBit_lt _) h5
  have h7 := crcBit_inj (crcBit_lt _) (crcBit_lt _) h6
  have h8 := crcBit_inj (xor_lt_65536 hs hb2) (xor_lt_65536 hs hc2) h7
  have h9 := Nat.xor_right_inj.mp h8
  omega

theorem foldl_crcByte_inj (l : List Nat) {s t : Nat} (hs : s < 65536) (ht : t < 65536)
    (h : List.foldl crcByte s l = List.foldl crcByte t l) : s = t := by
  induction l generalizing s t with
  | nil => simpa using h
  | cons b rest ih =>
    simp only [List.foldl_cons] at h
    exact crcByte_inj_state b hs ht (ih (crcByte_lt s b) (crcByte_lt t b) h)

/-- A single changed byte always changes the CRC-16. -/
theorem crc16_single_byte (pre suf : List Nat) {b c : Nat}
    (hb : b < 256) (hc : c < 256) (hne : b ≠ c) :
    crc16 (pre ++ b :: suf) ≠ crc16 (pre ++ c :: suf) := by
  intro h
  unfold crc16 at h
  rw [List.foldl_append, List.foldl_append, List.foldl_cons, List.foldl_cons] at h
  have hpre : List.foldl crcByte 65535 pre < 65536 :=
    foldl_crcByte_lt pre 65535 (by norm_num)
  have hstep := foldl_crcByte_inj suf (crcByte_lt _ b) (crcByte_lt _ c) h
  exact hne (crcByte_inj_byte hpre hb hc hstep)

theorem unescape_escape (l : List Nat) : unescapeBytes (escapeBytes l) = some l := by
  induction l with
  | nil => rfl
  | cons b rest ih =>
    show unescapeBytes (escapeByte b ++ escapeBytes rest) = some (b :: rest)
    unfold escapeByte
    by_cases h1 : b = delimByte
    · simp only [if_pos h1]
      show unescapeBytes (escByte :: escDelim :: escapeBytes rest) = some (b :: rest)
      unfold unescapeBytes
      rw [if_pos rfl]
      simp only [escDelim, escEsc, if_pos rfl]
      rw [ih]
      simp [h1]
    · by_cases h2 : b = escByte
      · simp only [if_neg h1, if_pos h2]
        show unescapeBytes (escByte :: escEsc :: escapeBytes rest) = some (b :: rest)
        unfold unescapeBytes
        rw [if_pos rfl]
        have hne : ¬(escEsc = escDelim) := by decide
        simp only [if_neg hne, if_pos rfl]
        rw [ih]
        simp [h2]
      · simp only [if_neg h1, if_neg h2]
        show unescapeBytes (b :: escapeBytes rest) = some (b :: rest)
        unfold unescapeBytes
        rw [if_neg h2, if_neg h1, ih]
        rfl

theorem decodeType_typeCode (t : PacketType) : decodeType (typeCode t) = some t := by
  cases t <;> rfl

theorem parseHeader_roundtrip (f : Frame) :
    parseHeader (f.seq % 8 + 8 * (f.ackNum % 8) + 64 * (if f.reliable then 1 else 0))
      (typeCode f.ptype) f.payload =
      some ⟨f.ptype, f.seq % 8, f.ackNum % 8, f.reliable, f.payload⟩ := by
  have hs : f.seq % 8 < 8 := Nat.mod_lt _ (by norm_num)
  have ha : f.ackNum % 8 < 8 := Nat.mod_lt _ (by norm_num)
  unfold parseHeader
  rw [decodeType_typeCode]
  cases hr : f.reliable <;> simp <;> omega

theorem contentBytes_length (f : Frame) :
    (contentBytes f).length = f.payload.length + 4 := by
  simp [contentBytes, bodyBytes, headerBytes, crcOut]

theorem contentBytes_take (f : Frame) :
    (contentBytes f).take ((contentBytes f).length - 2) = bodyBytes f := by
  have h : (contentBytes f).length - 2 = (bodyBytes f).length := by
    simp [contentBytes, crcOut]
  rw [h]
  exact List.take_left _ _

theorem contentBytes_drop (f : Frame) :
    (contentBytes f).drop ((contentBytes f).length - 2) = crcOut (crc16 (bodyBytes f)) := by
  have h : (contentBytes f).length - 2 = (bodyBytes f).length := by
    simp [contentBytes, crcOut]
  rw [h]
  exact List.drop_left _ _

theorem decodeContent_contentBytes (f : Frame) :
    decodeContent (contentBytes f) =
      some ⟨f.ptype, f.seq % 8, f.ackNum % 8, f.reliable, f.payload⟩ := by
  unfold decodeContent
  rw [if_neg (by rw [contentBytes_length]; omega)]
  rw [contentBytes_take, contentBytes_drop, if_pos rfl]
  show parseHeader _ _ _ = _
  exact parseHeader_roundtrip f

theorem decodeWire_wireBytes (f : Frame) :
    decodeWire (wireBytes f) =
      some ⟨f.ptype, f.seq % 8, f.ackNum % 8, f.reliable, f.payload⟩ := by
  unfold decodeWire wireBytes
  rw [if_neg (by simp)]
  have hlast :
      (delimByte :: (escapeBytes (contentBytes f) ++ [delimByte])).getLast? = some delimByte := by
    rw [show delimByte :: (escapeBytes (contentBytes f) ++ [delimByte]) =
        (delimByte :: escapeBytes (contentBytes f)) ++ [delimByte] from rfl]
    exact List.getLast?_concat _
  rw [if_pos ⟨rfl, hlast⟩]
  have hdrop :
      ((delimByte :: (escapeBytes (contentBytes f) ++ [delimByte])).drop 1).dropLast =
        escapeBytes (contentBytes f) := by
    rw [List.drop_one]
    simp [List.dropLast_concat]
  rw [hdrop, unescape_escape]
  exact decodeContent_contentBytes f

/-- Claim C2: for every payload byte sequence, including sequences containing
the frame delimiter and escape byte values, decoding the frame produced by
encoding it recovers exactly the original payload (and the header fields
reduced to their 3-bit wire width): frame encode then decode is the identity
on payloads. -/
theorem claim2_encode_decode_roundtrip (f : Frame) :
    decodeWire (wireBytes f) =
      some { f with seq := f.seq % 8, ackNum := f.ackNum % 8 } :=
  decodeWire_wireBytes f

/-- Claim C3: a valid inbound data frame whose sequence number equals the last
delivered one (a duplicate retransmission) is acknowledged again but its
payload is not delivered upward again, and the receiver state is unchanged,
so every further retransmission of it is acknowledged again and never
redelivered: upward delivery is at-most-once. -/
theorem claim3_duplicate_acked_not_redelivered (st : RecvState) (f : Frame)
    (ht : f.ptype = .data) (he : st.expected < 8)
    (hs : f.seq = (st.expected + 7) % 8) :
    processContent st (contentBytes f) = (st, none, [ackFrame st.expected]) := by
  have hseq : f.seq < 8 := by omega
  unfold processContent
  rw [decodeContent_contentBytes f]
  have hmod : f.seq % 8 = f.seq := Nat.mod_eq_of_lt hseq
  rw [ht]
  show handleData st ⟨.data, f.seq % 8, f.ackNum % 8, f.reliable, f.payload⟩ = _
  unfold handleData
  have hne : ¬(f.seq % 8 = st.expected) := by omega
  rw [if_neg (by simpa using hne)]
  rw [if_pos (by simpa [hmod] using hs)]

/-- Witness for claim C3 at a concrete duplicate: expected sequence 3, frame
retransmitted with sequence 2 (the last delivered one). -/
theorem claim3_witness :
    processContent ⟨3⟩ (contentBytes ⟨.data, 2, 0, true, [9, 9]⟩) =
      (⟨3⟩, none, [ackFrame 3]) :=
  claim3_duplicate_acked_not_redelivered ⟨3⟩ ⟨.data, 2, 0, true, [9, 9]⟩
    rfl (by decide) (by decide)

/-- Claim C7: sequence and acknowledgment numbers are modulo-8 counters:
advancing the expected sequence is computed mod 8, advancing from 7 yields 0,
in-sequence data frames advance the expected number mod 8, and window
matching of ack numbers is correct across the 7 to 0 wraparound. -/
theorem claim7_mod8_counters :
    nextSeq 7 = 0 ∧
    (∀ s : Nat, nextSeq s = (s + 1) % 8 ∧ nextSeq s < 8) ∧
    (∀ (st : RecvState) (f : Frame), f.seq = st.expected →
      (handleData st f).1.expected = (st.expected + 1) % 8) ∧
    ackMatches 0 7 = true ∧
    (∀ a s : Nat, ackMatches a s = true ↔ a = (s + 1) % 8) := by
  refine ⟨rfl, fun s => ⟨rfl, Nat.mod_lt _ (by norm_num)⟩, ?_, by decide, ?_⟩
  · intro st f h
    simp [handleData, h, nextSeq]
  · intro a s
    simp [ackMatches, nextSeq]

/-- Witness for claim C7: advancing from 7 wraps to 0, an in-sequence frame
at expected sequence 7 advances the receiver to 0, and ack number 0 matches
outstanding sequence number 7. -/
theorem claim7_witness :
    (handleData ⟨7⟩ ⟨.data, 7, 0, true, [1]⟩).1.expected = 0 ∧ ackMatches 0 7 = true := by
  obtain ⟨h1, h2, h3, h4, h5⟩ := claim7_mod8_counters
  exact ⟨h3 ⟨7⟩ ⟨.data, 7, 0, true, [1]⟩ rfl, h4⟩

theorem runHandshake_active_iff (n : Nat) (rs : List Bool) :
    runHandshake n rs = .active ↔ true ∈ rs.take n := by
  induction n generalizing rs with
  | zero => simp [runHandshake]
  | succ m ih =>
    cases rs with
    | nil => simp [runHandshake]
    | cons r rest =>
      cases r
      · have e : runHandshake (m + 1) (false :: rest) = runHandshake m rest := rfl
        rw [e, ih]
        simp
      · have e : runHandshake (m + 1) (true :: rest) = .active := rfl
        rw [e]
        simp

/-- Claim C8: sd_rpc_open returns a success status only if the data-link
initialization handshake completed and the link reached Active; when the
handshake attempts are exhausted without a peer response, it returns a
link-establishment error instead of success. -/
theorem claim8_open_success_iff_active (ad : Adapter) (n : Nat) (rs : List Bool) :
    ((sd_rpc_open ad n rs).1 = NRF_SUCCESS ↔ runHandshake n rs = .active) ∧
    ((sd_rpc_open ad n rs).1 = NRF_SUCCESS → (sd_rpc_open ad n rs).2.link = .active) ∧
    (runHandshake n rs ≠ .active →
      (sd_rpc_open ad n rs).1 = NRF_ERROR_TIMEOUT ∧
        (sd_rpc_open ad n rs).1 ≠ NRF_SUCCESS ∧
        (sd_rpc_open ad n rs).2.link = .closed) ∧
    (runHandshake n rs = .active ↔ true ∈ rs.take n) := by
  refine ⟨?_, ?_, ?_, runHandshake_active_iff n rs⟩ <;>
    unfold sd_rpc_open <;> by_cases h : runHandshake n rs = .active
  · simp [h, NRF_SUCCESS]
  · simp [h, NRF_SUCCESS, NRF_ERROR_TIMEOUT]
  · simp [h]
  · simp [h, NRF_SUCCESS, NRF_ERROR_TIMEOUT]
  · simp [h]
  · simp [h, NRF_SUCCESS, NRF_ERROR_TIMEOUT]

/-- Witness for claim C8: with three allowed attempts, a peer that answers
the second synchronization packet yields success, and a peer that never
answers yields the link-establishment error. -/
theorem claim8_witness :
    (sd_rpc_open adapterCreate 3 [false, true]).1 = NRF_SUCCESS ∧
    (sd_rpc_open adapterCreate 3 [false, false, false]).1 = NRF_ERROR_TIMEOUT := by
  have h1 := (claim8_open_success_iff_active adapterCreate 3 [false, true]).1
  have h2 := (claim8_open_success_iff_active adapterCreate 3 [false, false, false]).2.2.1
  exact ⟨h1.mpr (by decide), (h2 (by decide)).1⟩

/-- Claim C9: sd_rpc_log_handler_severity_filter_set returns
NRF_ERROR_INVALID_PARAM and changes no state when the severity is not one of
the valid severity enum values, returns NRF_SUCCESS and installs the filter
when it is, and before any call the filter defaults to the info severity. -/
theorem claim9_severity_filter (ad : Adapter) (sev : Nat) :
    (severityValid sev = false →
      sd_rpc_log_handler_severity_filter_set ad sev = (NRF_ERROR_INVALID_PARAM, ad)) ∧
    (severityValid sev = true →
      sd_rpc_log_handler_severity_filter_set ad sev =
        (NRF_SUCCESS, { ad with severityFilter := sev })) ∧
    adapterCreate.severityFilter = SD_RPC_LOG_INFO := by
  refine ⟨?_, ?_, rfl⟩ <;> intro h <;>
    unfold sd_rpc_log_handler_severity_filter_set <;> simp [h]

/-- Witness for claim C9: severity 9 is invalid and is rejected with no state
change; severity 4 (error) is valid and is installed. -/
theorem claim9_witness :
    sd_rpc_log_handler_severity_filter_set adapterCreate 9 =
      (NRF_ERROR_INVALID_PARAM, adapterCreate) ∧
    sd_rpc_log_handler_severity_filter_set adapterCreate 4 =
      (NRF_SUCCESS, { adapterCreate with severityFilter := 4 }) :=
  ⟨(claim9_severity_filter adapterCreate 9).1 (by decide),
    (claim9_severity_filter adapterCreate 4).2.1 (by decide)⟩

/-- Claim C10: sd_rpc_adapter_delete returns void, so deleting any adapter,
open or closed, yields the same empty result: no failure of deletion can
ever be reported to the caller through the return value. -/
theorem claim10_delete_returns_no_status (a b : Adapter) :
    sd_rpc_adapter_delete a = sd_rpc_adapter_delete b := rfl

theorem onTimeout_disarmed {mr : Nat} {st : SendState} (h : st.timerArmed = false) :
    onTimeout mr st = (st, [], 0) := by
  unfold onTimeout
  rw [h]
  rfl

theorem runTimeouts_disarmed {mr : Nat} {st : SendState} (h : st.timerArmed = false) :
    ∀ n, runTimeouts mr st n = (st, 0) := by
  intro n
  induction n with
  | zero => rfl
  | succ m ih =>
    show runTimeouts mr st (m + 1) = (st, 0)
    unfold runTimeouts
    rw [onTimeout_disarmed h]
    simp [ih]

theorem onTimeout_retransmit {mr : Nat} {nq q k : Nat} {p : List Nat} (hk : k < mr) :
    onTimeout mr ⟨.active, nq, [⟨q, p, k⟩], true⟩ =
      (⟨.active, nq, [⟨q, p, k + 1⟩], true⟩, [dataFrame ⟨q, p, k⟩], 0) := by
  unfold onTimeout
  simp [hk]

theorem onTimeout_fatal {mr : Nat} {nq q k : Nat} {p : List Nat} (hk : ¬k < mr) :
    onTimeout mr ⟨.active, nq, [⟨q, p, k⟩], true⟩ =
      (⟨.closed, nq, [], false⟩, [], 1) := by
  unfold onTimeout
  simp [hk]

theorem runTimeouts_succ (mr : Nat) (st : SendState) (n : Nat) :
    runTimeouts mr st (n + 1) =
      ((runTimeouts mr (onTimeout mr st).1 n).1,
        (onTimeout mr st).2.2 + (runTimeouts mr (onTimeout mr st).1 n).2) := rfl

theorem runTimeouts_counts (mr q nq : Nat) (p : List Nat) :
    ∀ (n k : Nat), k ≤ mr →
      (n ≤ mr - k →
        runTimeouts mr ⟨.active, nq, [⟨q, p, k⟩], true⟩ n =
          (⟨.active, nq, [⟨q, p, k + n⟩], true⟩, 0)) ∧
      (mr - k < n →
        runTimeouts mr ⟨.active, nq, [⟨q, p, k⟩], true⟩ n =
          (⟨.closed, nq, [], false⟩, 1)) := by
  intro n
  induction n with
  | zero =>
    intro k hk
    exact ⟨fun _ => rfl, fun h => absurd h (by omega)⟩
  | succ m ih =>
    intro k hk
    by_cases hlt : k < mr
    · have hstep :
          runTimeouts mr ⟨.active, nq, [⟨q, p, k⟩], true⟩ (m + 1) =
            runTimeouts mr ⟨.active, nq, [⟨q, p, k + 1⟩], true⟩ m := by
        rw [runTimeouts_succ, onTimeout_retransmit hlt]
        simp
      constructor
      · intro hle
        rw [hstep]
        have hh := (ih (k + 1) (by omega)).1 (by omega)
        rw [hh]
        have e : k + 1 + m = k + (m + 1) := by omega
        rw [e]
      · intro hgt
        rw [hstep]
        exact (ih (k + 1) (by omega)).2 (by omega)
    · have hstep :
          runTimeouts mr ⟨.active, nq, [⟨q, p, k⟩], true⟩ (m + 1) =
            ((runTimeouts mr ⟨.closed, nq, [], false⟩ m).1,
              1 + (runTimeouts mr ⟨.closed, nq, [], false⟩ m).2) := by
        rw [runTimeouts_succ, onTimeout_fatal hlt]
      constructor
      · intro hle
        omega
      · intro _
        rw [hstep, runTimeouts_disarmed rfl]
        simp

/-- Claim C5: when an outbound frame stays unacknowledged, each timer firing
retransmits the same frame with an unchanged sequence number and an
incremented retry count while the retry count is within max_retries (no error
is reported during those firings), and once max_retries consecutive
retransmissions have gone unacknowledged the next firing transitions the link
to Closed and reports the fatal link error exactly once: for every longer run
of firings the total number of reported fatal errors is still exactly one,
never zero and never two. -/
theorem claim5_retry_exhaustion_fatal_once (mr n q nq : Nat) (p : List Nat)
    (hn : mr < n) :
    (runTimeouts mr ⟨.active, nq, [⟨q, p, 0⟩], true⟩ n).2 = 1 ∧
    (runTimeouts mr ⟨.active, nq, [⟨q, p, 0⟩], true⟩ n).1 = ⟨.closed, nq, [], false⟩ ∧
    (∀ m, m ≤ mr →
      runTimeouts mr ⟨.active, nq, [⟨q, p, 0⟩], true⟩ m =
        (⟨.active, nq, [⟨q, p, m⟩], true⟩, 0)) := by
  have hmain := (runTimeouts_counts mr q nq p n 0 (by omega)).2 (by omega)
  refine ⟨by rw [hmain], by rw [hmain], ?_⟩
  intro m hm
  have := (runTimeouts_counts mr q nq p m 0 (by omega)).1 (by omega)
  simpa using this

/-- Witness for claim C5: with max_retries 2, four consecutive timer firings
on an unacknowledged frame report exactly one fatal error and close the
link, while the first two firings only retransmit. -/
theorem claim5_witness :
    (runTimeouts 2 ⟨.active, 1, [⟨0, [7], 0⟩], true⟩ 4).2 = 1 ∧
    (runTimeouts 2 ⟨.active, 1, [⟨0, [7], 0⟩], true⟩ 4).1 = ⟨.closed, 1, [], false⟩ := by
  obtain ⟨h1, h2, _⟩ := claim5_retry_exhaustion_fatal_once 2 4 0 1 [7] (by decide)
  exact ⟨h1, h2⟩

theorem step_window {s t : SendState} (hs : Step s t) (ih : s.inFlight.length ≤ 1) :
    t.inFlight.length ≤ 1 := by
  cases hs with
  | send _ p =>
    by_cases hc : s.link = .active ∧ s.inFlight = []
    · simp [dlSend, hc]
    · simp only [dlSend, if_neg hc]
      exact ih
  | recvAck _ a =>
    cases hf : s.inFlight with
    | nil => simpa [handleAck, hf] using ih
    | cons w rest =>
      by_cases hm : ackMatches a w.seq
      · simp [handleAck, hf, hm]
      · simp only [handleAck, hf, hm]
        simpa [hf] using ih
  | timeout mr _ =>
    by_cases ht : s.timerArmed
    · cases hf : s.inFlight with
      | nil =>
        simp only [onTimeout, ht, hf, if_true]
        simpa [hf] using ih
      | cons w rest =>
        by_cases hk : w.retryCount < mr
        · simp [onTimeout, ht, hf, hk]
        · simp [onTimeout, ht, hf, hk]
    · simp only [onTimeout, ht]
      simpa using ih
  | reset _ => simp [linkReset]

theorem reachable_window_le_one {st : SendState} (h : Reachable st) :
    st.inFlight.length ≤ 1 := by
  induction h with
  | init => simp [initSendState]
  | step hr hs ih => exact step_window hs ih

/-- Claim C6: in every reachable sender-side state, at most one
unacknowledged outbound data frame is in flight (window size 1); a valid ack
whose number matches the outstanding sequence number clears the window and
cancels the retransmission timer; a non-matching (stale) ack leaves the
state, window and timer unchanged; and a link reset clears the window and
timer. -/
theorem claim6_window_size_one (st : SendState) (h : Reachable st) :
    st.inFlight.length ≤ 1 ∧
    (∀ w rest, st.inFlight = w :: rest →
      handleAck st (nextSeq w.seq) = { st with inFlight := [], timerArmed := false }) ∧
    (∀ a w rest, st.inFlight = w :: rest → ackMatches a w.seq = false →
      handleAck st a = st) ∧
    (st.inFlight = [] → ∀ a, handleAck st a = st) ∧
    (linkReset st).inFlight = [] ∧ (linkReset st).timerArmed = false := by
  refine ⟨reachable_window_le_one h, ?_, ?_, ?_, rfl, rfl⟩
  · intro w rest hf
    simp [handleAck, hf, ackMatches]
  · intro a w rest hf hm
    simp [handleAck, hf, hm]
  · intro hf a
    simp [handleAck, hf]

/-- Witness for claim C6 at a concrete reachable state: after the link came
up and one payload was accepted by send, exactly one frame is in flight; the
matching ack (sequence 0 acknowledged by ack number 1) clears the window and
timer, while the stale ack number 5 changes nothing. -/
theorem claim6_witness :
    ((dlSend initSendState [3, 4]).1.inFlight.length ≤ 1) ∧
    handleAck (dlSend initSendState [3, 4]).1 1 =
      { (dlSend initSendState [3, 4]).1 with inFlight := [], timerArmed := false } ∧
    handleAck (dlSend initSendState [3, 4]).1 5 = (dlSend initSendState [3, 4]).1 := by
  have hre : Reachable (dlSend initSendState [3, 4]).1 :=
    Reachable.step Reachable.init (Step.send initSendState [3, 4])
  obtain ⟨h1, h2, h3, _, _, _⟩ := claim6_window_size_one _ hre
  refine ⟨h1, ?_, ?_⟩
  · have := h2 ⟨0, [3, 4], 0⟩ [] (by rfl)
    simpa using this
  · have := h3 5 ⟨0, [3, 4], 0⟩ [] (by rfl) (by decide)
    exact this

theorem take_get_drop :
    ∀ (l : List Nat) (i : Nat) (h : i < l.length),
      l.take i ++ l.get ⟨i, h⟩ :: l.drop (i + 1) = l := by
  intro l
  induction l with
  | nil =>
    intro i h
    exact absurd h (by simp)
  | cons b rest ih =>
    intro i h
    cases i with
    | zero => rfl
    | succ j =>
      show b :: (rest.take j ++ rest.get ⟨j, _⟩ :: rest.drop (j + 1)) = b :: rest
      rw [ih j (by simpa using h)]

theorem bodyBytes_lt (f : Frame) (hp : ∀ x ∈ f.payload, x < 256) :
    ∀ x ∈ bodyBytes f, x < 256 := by
  intro x hx
  have hr : (if f.reliable then 1 else 0) ≤ 1 := by
    cases f.reliable <;> simp
  have htc : typeCode f.ptype < 256 := by
    cases f.ptype <;> norm_num [typeCode]
  simp only [bodyBytes, headerBytes, List.cons_append, List.nil_append,
    List.mem_cons] at hx
  rcases hx with h | h | h
  · subst h
    have h1 : f.seq % 8 < 8 := Nat.mod_lt _ (by norm_num)
    have h2 : f.ackNum % 8 < 8 := Nat.mod_lt _ (by norm_num)
    omega
  · subst h
    exact htc
  · exact hp x h

theorem crcOut_inj {c d : Nat} (hc : c < 65536) (hd : d < 65536)
    (h : crcOut c = crcOut d) : c = d := by
  simp only [crcOut, List.cons.injEq, and_true] at h
  omega

theorem bodyBytes_len (f : Frame) : (bodyBytes f).length = f.payload.length + 2 := by
  simp [bodyBytes, headerBytes]

theorem crc16_set_ne (body : List Nat) (i b : Nat) (hi : i < body.length)
    (hb : b < 256) (hall : ∀ x ∈ body, x < 256) (hne : b ≠ body.get ⟨i, hi⟩) :
    crc16 (body.set i b) ≠ crc16 body := by
  have hdecomp := take_get_drop body i hi
  rw [List.set_eq_take_cons_drop b hi]
  conv_rhs => rw [← hdecomp]
  exact crc16_single_byte _ _ hb (hall _ (List.get_mem body i hi)) hne

theorem decodeContent_corrupt (f : Frame) (i b : Nat)
    (hp : ∀ x ∈ f.payload, x < 256)
    (hi : i < (contentBytes f).length) (hb : b < 256)
    (hne : b ≠ (contentBytes f).get ⟨i, hi⟩) :
    decodeContent ((contentBytes f).set i b) = none := by
  have hlen0 : (contentBytes f).length = (bodyBytes f).length + 2 := by
    simp [contentBytes, crcOut]
  by_cases hcase : i < (bodyBytes f).length
  · have hset : (contentBytes f).set i b =
        (bodyBytes f).set i b ++ crcOut (crc16 (bodyBytes f)) := by
      unfold contentBytes
      rw [List.set_append_left _ _ hcase]
    have hlen : ((bodyBytes f).set i b ++ crcOut (crc16 (bodyBytes f))).length =
        ((bodyBytes f).set i b).length + 2 := by
      simp [crcOut]
    have hsub : ((bodyBytes f).set i b ++ crcOut (crc16 (bodyBytes f))).length - 2 =
        ((bodyBytes f).set i b).length := by
      rw [hlen]
      omega
    have hget : (contentBytes f).get ⟨i, hi⟩ = (bodyBytes f).get ⟨i, hcase⟩ := by
      unfold contentBytes
      rw [List.get_append _ hcase]
    unfold decodeContent
    rw [hset, if_neg (by
      rw [hlen, List.length_set]
      have hbl := bodyBytes_len f
      omega)]
    rw [hsub, List.take_left, List.drop_left]
    rw [if_neg ?_]
    intro hcontra
    have hcrceq := crcOut_inj (crc16_lt _) (crc16_lt _) hcontra
    exact crc16_set_ne (bodyBytes f) i b hcase hb (bodyBytes_lt f hp)
      (hget ▸ hne) hcrceq.symm
  · have hjlt : i - (bodyBytes f).length < 2 := by omega
    have hset : (contentBytes f).set i b =
        bodyBytes f ++ (crcOut (crc16 (bodyBytes f))).set (i - (bodyBytes f).length) b := by
      unfold contentBytes
      exact List.set_append_right _ _ (by omega)
    have hlen : (bodyBytes f ++
        (crcOut (crc16 (bodyBytes f))).set (i - (bodyBytes f).length) b).length =
        (bodyBytes f).length + 2 := by
      simp [crcOut]
    have hsub : (bodyBytes f ++
        (crcOut (crc16 (bodyBytes f))).set (i - (bodyBytes f).length) b).length - 2 =
        (bodyBytes f).length := by
      rw [hlen]
      omega
    have hq : (contentBytes f).get? i =
        (crcOut (crc16 (bodyBytes f))).get? (i - (bodyBytes f).length) := by
      unfold contentBytes
      exact List.get?_append_right (by omega)
    have hv : (contentBytes f).get? i = some ((contentBytes f).get ⟨i, hi⟩) :=
      List.get?_eq_get hi
    unfold decodeContent
    rw [hset, if_neg (by
      rw [hlen]
      have hbl := bodyBytes_len f
      omega)]
    rw [hsub, List.take_left, List.drop_left]
    rw [if_neg ?_]
    intro hcontra
    rw [hv] at hq
    rcases (show i - (bodyBytes f).length = 0 ∨ i - (bodyBytes f).length = 1 from by
      omega) with hj | hj
    · rw [hj] at hq hcontra
      simp only [crcOut, List.set_cons_zero, List.cons.injEq, and_true] at hcontra
      simp only [crcOut, List.get?] at hq
      have hcv : (contentBytes f).get ⟨i, hi⟩ = crc16 (bodyBytes f) % 256 := by
        exact Option.some.inj hq
      exact hne (by rw [hcv, ← hcontra])
    · rw [hj] at hq hcontra
      simp only [crcOut, List.set_cons_succ, List.set_cons_zero,
        List.cons.injEq, true_and] at hcontra
      simp only [crcOut, List.get?] at hq
      have hcv : (contentBytes f).get ⟨i, hi⟩ = crc16 (bodyBytes f) / 256 % 256 := by
        exact Option.some.inj hq
      exact hne (by rw [hcv]; exact hcontra.1)

theorem processContent_dataFrame (rs : RecvState) (w : WindowEntry) (hq : w.seq < 8) :
    processContent rs (contentBytes (dataFrame w)) = handleData rs (dataFrame w) := by
  unfold processContent
  rw [decodeContent_contentBytes]
  have h1 : w.seq % 8 = w.seq := Nat.mod_eq_of_lt hq
  simp [dataFrame, h1]

theorem handleData_in_seq (rs : RecvState) (w : WindowEntry) (h : w.seq = rs.expected) :
    handleData rs (dataFrame w) =
      (⟨nextSeq rs.expected⟩, some w.payload, [ackFrame (nextSeq rs.expected)]) := by
  simp [handleData, dataFrame, h]

theorem handleAck_clears (nq q k : Nat) (p : List Nat) :
    handleAck ⟨.active, nq, [⟨q, p, k⟩], true⟩ (nextSeq q) = ⟨.active, nq, [], false⟩ := by
  simp [handleAck, ackMatches]

theorem dlSend_free (nq : Nat) (p : List Nat) :
    dlSend ⟨.active, nq, [], false⟩ p =
      (⟨.active, nextSeq nq, [⟨nq, p, 0⟩], true⟩, [dataFrame ⟨nq, p, 0⟩]) := by
  simp [dlSend]

theorem sendRounds_cons_drop (mr : Nat) (rs : RecvState) (nq q k : Nat)
    (p : List Nat) (rest : List Bool) :
    sendRounds mr rs ⟨.active, nq, [⟨q, p, k⟩], true⟩ (true :: rest) =
      sendRounds mr rs (onTimeout mr ⟨.active, nq, [⟨q, p, k⟩], true⟩).1 rest := rfl

theorem sendRounds_cons_ok (mr : Nat) (rs : RecvState) (nq q k : Nat)
    (p : List Nat) (rest : List Bool) :
    sendRounds mr rs ⟨.active, nq, [⟨q, p, k⟩], true⟩ (false :: rest) =
      ((processContent rs (contentBytes (dataFrame ⟨q, p, k⟩))).1,
        ((processContent rs (contentBytes (dataFrame ⟨q, p, k⟩))).2.2).foldl
          (fun s a => handleAck s a.ackNum) ⟨.active, nq, [⟨q, p, k⟩], true⟩,
        ((processContent rs (contentBytes (dataFrame ⟨q, p, k⟩))).2.1).toList) := rfl

theorem sendRounds_delivers (mr : Nat) :
    ∀ (ds : List Bool) (k q nq : Nat) (p : List Nat),
      q < 8 → k ≤ mr → false ∈ ds.take (mr - k) →
      sendRounds mr ⟨q⟩ ⟨.active, nq, [⟨q, p, k⟩], true⟩ ds =
        (⟨nextSeq q⟩, ⟨.active, nq, [], false⟩, [p]) := by
  intro ds
  induction ds with
  | nil =>
    intro k q nq p hq hk hmem
    simp at hmem
  | cons d rest ih =>
    intro k q nq p hq hk hmem
    cases d
    · rw [sendRounds_cons_ok, processContent_dataFrame ⟨q⟩ ⟨q, p, k⟩ hq,
        handleData_in_seq ⟨q⟩ ⟨q, p, k⟩ rfl]
      simp [ackFrame, handleAck_clears]
    · have hk2 : k < mr := by
        rcases Nat.eq_zero_or_pos (mr - k) with h0 | h0
        · rw [h0] at hmem
          simp at hmem
        · omega
      have hmem2 : false ∈ rest.take (mr - (k + 1)) := by
        rcases e : mr - k with _ | j
        · omega
        · rw [e] at hmem
          simp only [List.take_succ_cons, List.mem_cons] at hmem
          rcases hmem with h | h
          · exact absurd h (by simp)
          · have e2 : mr - (k + 1) = j := by omega
            rw [e2]
            exact h
      rw [sendRounds_cons_drop, onTimeout_retransmit hk2]
      exact ih (k + 1) q nq p hq (by omega) hmem2

theorem runSystem_nil (mr : Nat) (rs : RecvState) (ss : SendState)
    (dss : List (List Bool)) :
    runSystem mr rs ss [] dss = (rs, ss, []) := rfl

theorem runSystem_cons (mr : Nat) (rs : RecvState) (ss : SendState) (p : List Nat)
    (ps : List (List Nat)) (ds : List Bool) (dss : List (List Bool)) :
    runSystem mr rs ss (p :: ps) (ds :: dss) =
      ((runSystem mr (sendOne mr rs ss p ds).1 (sendOne mr rs ss p ds).2.1 ps dss).1,
        (runSystem mr (sendOne mr rs ss p ds).1 (sendOne mr rs ss p ds).2.1 ps dss).2.1,
        (sendOne mr rs ss p ds).2.2 ++
          (runSystem mr (sendOne mr rs ss p ds).1 (sendOne mr rs ss p ds).2.1 ps dss).2.2) :=
  rfl

/-- Claim C1: every payload accepted by send while the link is Active is
delivered to the peer upward callback exactly once and in submission order,
provided at most max_retries - 1 consecutive transmissions of any single
frame are dropped or corrupted by the network (each transmission round is
lost when the data frame or its acknowledgment is dropped or corrupted; a
successful round delivers the frame to the receiver, whose acknowledgment
clears the window): the list of payloads delivered upward equals the list of
payloads submitted. -/
theorem claim1_in_order_exactly_once (mr : Nat) :
    ∀ (ps : List (List Nat)) (dss : List (List Bool)) (q : Nat),
      q < 8 → ps.length = dss.length → (∀ ds ∈ dss, goodDrops mr ds) →
      (runSystem mr ⟨q⟩ ⟨.active, q, [], false⟩ ps dss).2.2 = ps := by
  intro ps
  induction ps with
  | nil =>
    intro dss q hq hlen hgood
    rw [runSystem_nil]
  | cons p ps ih =>
    intro dss q hq hlen hgood
    cases dss with
    | nil => simp at hlen
    | cons ds dss =>
      have hgd : goodDrops mr ds := hgood ds (by simp)
      have hrounds := sendRounds_delivers mr ds 0 q (nextSeq q) p hq (by omega)
        (by simpa [goodDrops] using hgd)
      have hsend : sendOne mr ⟨q⟩ ⟨.active, q, [], false⟩ p ds =
          (⟨nextSeq q⟩, ⟨.active, nextSeq q, [], false⟩, [p]) := by
        unfold sendOne
        rw [dlSend_free]
        exact hrounds
      rw [runSystem_cons, hsend]
      show [p] ++ (runSystem mr ⟨nextSeq q⟩ ⟨.active, nextSeq q, [], false⟩ ps dss).2.2 =
        p :: ps
      rw [ih dss (nextSeq q) (Nat.mod_lt _ (by norm_num)) (by simpa using hlen)
        (fun d hd => hgood d (by simp [hd]))]
      rfl

/-- Witness for claim C1: two payloads, the first one dropped once and
retransmitted successfully, the second delivered at the first attempt, with
max_retries 2: both are delivered exactly once, in order. -/
theorem claim1_witness :
    (0 : Nat) < 8 ∧
    (runSystem 2 ⟨0⟩ ⟨.active, 0, [], false⟩ [[1], [2, 3]]
        [[true, false], [false]]).2.2 = [[1], [2, 3]] :=
  ⟨by decide,
    claim1_in_order_exactly_once 2 [[1], [2, 3]] [[true, false], [false]] 0
      (by decide) (by decide) (by decide)⟩

/-- Claim C4: corrupting any single byte of a frame (header, payload or CRC
trailer) makes the CRC check fail, and the receiving data-link layer then
discards the frame: no payload is delivered upward from it and the expected
sequence number state after processing equals the state before. -/
theorem claim4_single_byte_corruption_discarded (st : RecvState) (f : Frame)
    (i b : Nat) (hp : ∀ x ∈ f.payload, x < 256)
    (hi : i < (contentBytes f).length) (hb : b < 256)
    (hne : b ≠ (contentBytes f).get ⟨i, hi⟩) :
    processContent st ((contentBytes f).set i b) = (st, none, []) := by
  unfold processContent
  rw [decodeContent_corrupt f i b hp hi hb hne]

/-- Witness for claim C4: corrupting byte 2 (the first payload byte) of a
concrete data frame to 77 leaves the receiver in its prior state with nothing
delivered and nothing acknowledged. -/
theorem claim4_witness :
    processContent ⟨5⟩ ((contentBytes ⟨.data, 5, 0, true, [1, 200]⟩).set 2 77) =
      (⟨5⟩, none, []) :=
  claim4_single_byte_corruption_discarded ⟨5⟩ ⟨.data, 5, 0, true, [1, 200]⟩ 2 77
    (by decide) (by decide) (by decide) (by decide)

end ThreeWire
